import Mathlib

/-!
# Verification of `chess_leaderboard.py`

A shallow embedding of the chess-club leaderboard script: the game
classifier (`parse_daily_games`'s per-game logic), the archive loop,
the aggregator (`compute_leaderboard`) and the report-level list
manipulations (chronological sort and rolling window), together with
theorems settling the specification claims.

Machine strings are Lean `String`s; Python `dict.get` defaulting is
modelled with `Option` fields and `Option.getD`; the HTTP transport is
modelled by passing the response (or per-URL fetch results) as explicit
values; floating-point `round(x, 2)` is modelled as exact rational
rounding to two decimal places with ties to even (Python 3 banker's
rounding); Python exceptions are modelled with `Except`.
-/

namespace ChessLeaderboard

/-- Python's `str.lower()` restricted to the ASCII usernames this
program handles: lower-case every character. -/
def strLower (s : String) : String :=
  String.mk (s.data.map Char.toLower)

/-- Python's substring test `needle in hay` on the underlying
character lists. -/
def containsSubstr (hay needle : List Char) : Bool :=
  match hay with
  | [] => needle.isEmpty
  | _ :: t => needle.isPrefixOf hay || containsSubstr t needle

/-- A raw game record as consumed from the API JSON.  Each field the
script reads with `dict.get` is optional; absence triggers the
script's documented defaults (empty string / `0`). -/
structure RawGame where
  time_class : Option String
  white_username : Option String
  white_result : Option String
  black_username : Option String
  black_result : Option String
  end_time : Option Int
  url : Option String
  deriving DecidableEq

/-- An Outcome Tuple: the dict appended to `game_list` by
`parse_daily_games` (lines 79-85 of the source). -/
structure GameTuple where
  player : String
  opponent : String
  outcome : String
  end_time : Int
  url : String
  deriving DecidableEq

/-- The explicit terminal-loss result codes (source line 72). -/
def lossCodes : List String := ["checkmated", "timeout", "resigned", "lose"]

/-- The result-code-to-outcome chain of `parse_daily_games`
(source lines 70-77): `"win"` exactly → win; a terminal-loss code →
loss; a code containing the substring `"draw"` or exactly
`"stalemate"` → draw; anything else → rejected (`none`). -/
def outcomeOf (player_result : String) : Option String :=
  if player_result = "win" then some "win"
  else if player_result ∈ lossCodes then some "loss"
  else if containsSubstr player_result.data "draw".data ∨
      player_result = "stalemate" then some "draw"
  else none

/-- The per-game body of `parse_daily_games` (source lines 48-85):
given the subject `player`, the eligible `opponents` and one raw game
record, either reject the record (`none`, the loop's `continue`) or
produce the Outcome Tuple it appends. -/
def classifyGame (player : String) (opponents : List String) (g : RawGame) :
    Option GameTuple :=
  if g.time_class ≠ some "daily" then none
  else
    let white := strLower (g.white_username.getD "")
    let black := strLower (g.black_username.getD "")
    let result_white := g.white_result.getD ""
    let result_black := g.black_result.getD ""
    let end_time := g.end_time.getD 0
    if player ≠ white ∧ player ≠ black then none
    else
      let opponent := if white = player then black else white
      if opponent ∉ opponents then none
      else
        let player_result := if player = white then result_white else result_black
        match outcomeOf player_result with
        | none => none
        | some outcome =>
            some { player := player, opponent := opponent, outcome := outcome,
                   end_time := end_time, url := g.url.getD "" }

/-- The body of `parse_daily_games` below the `fetch_archives` call
(source lines 41-85): iterate over the archive URLs, skip any archive
whose games fetch fails (`except ... continue`), and classify every
game of a successfully fetched archive, appending to the caller's
accumulator `game_list`.  The HTTP layer is modelled by `fetchGames`,
the per-URL fetch result (`Except` models a raised exception). -/
def parse_daily_games (player : String) (opponents : List String)
    (archives : List String) (fetchGames : String → Except String (List RawGame))
    (game_list : List GameTuple) : List GameTuple :=
  archives.foldl (fun acc url =>
    match fetchGames url with
    | .error _ => acc
    | .ok games => acc ++ games.filterMap (classifyGame player opponents)) game_list

/-- The fixed roster (source line 8). -/
def ALL_PLAYERS : List String := ["jcorr92", "xensprinkles", "euratoole", "teamoth"]

/-- Points for a win (source line 12). -/
def WIN_POINTS : Nat := 3

/-- Points for a draw (source line 13). -/
def DRAW_POINTS : Nat := 1

/-- Rolling-window size (source line 14). -/
def ROLLING_GAME_COUNT : Nat := 30

/-- The eligible-opponent set built by `main` for one roster `user`
(source line 149): `[p.lower() for p in ALL_PLAYERS if p != user.lower()]`. -/
def eligibleOpponents (user : String) : List String :=
  (ALL_PLAYERS.filter (fun p => p ≠ strLower user)).map strLower

/-- The accumulation loop of `main` (source lines 145-149): for each
roster player, run `parse_daily_games` with the lower-cased subject and
the lower-cased roster minus the subject, all into one shared list.
`fetchArchives` gives each subject's archive list (the result of the
non-raising path of `fetch_archives`). -/
def mainGameList (fetchArchives : String → List String)
    (fetchGames : String → Except String (List RawGame)) : List GameTuple :=
  ALL_PLAYERS.foldl (fun acc user =>
    parse_daily_games (strLower user) (eligibleOpponents user)
      (fetchArchives (strLower user)) fetchGames acc) []

/-- The per-player counters accumulated by the first loop of
`compute_leaderboard` (the defaultdict value before the second loop
adds `points` and `ppg`). -/
structure PreStats where
  games : Nat
  wins : Nat
  draws : Nat
  losses : Nat
  deriving DecidableEq

/-- The defaultdict's default value (source line 89). -/
def PreStats.init : PreStats := ⟨0, 0, 0, 0⟩

/-- One iteration of the first loop of `compute_leaderboard`
(source lines 93-99) on the subject player's counters. -/
def bumpStats (s : PreStats) (outcome : String) : PreStats :=
  { games := s.games + 1
    wins := if outcome = "win" then s.wins + 1 else s.wins
    draws := if outcome = "win" then s.draws
      else if outcome = "draw" then s.draws + 1 else s.draws
    losses := if outcome = "win" ∨ outcome = "draw" then s.losses
      else if outcome = "loss" then s.losses + 1 else s.losses }

/-- Update the defaultdict, modelled as an insertion-ordered
association list: bump the player's existing entry, or append a fresh
default entry bumped once. -/
def updateStats (l : List (String × PreStats)) (player outcome : String) :
    List (String × PreStats) :=
  match l with
  | [] => [(player, bumpStats PreStats.init outcome)]
  | (q, s) :: rest =>
      if q = player then (q, bumpStats s outcome) :: rest
      else (q, s) :: updateStats rest player outcome

/-- The first loop of `compute_leaderboard` (source lines 90-99). -/
def accumStats (game_list : List GameTuple) : List (String × PreStats) :=
  game_list.foldl (fun acc g => updateStats acc g.player g.outcome) []

/-- Round a rational to the nearest integer, ties to even: the
behaviour of Python 3's `round` on exactly representable halves. -/
def roundHalfEven (q : Rat) : Int :=
  let n := q.floor
  let r := q - (n : Rat)
  if r < 1 / 2 then n
  else if 1 / 2 < r then n + 1
  else if n % 2 = 0 then n else n + 1

/-- Python's `round(x, 2)` modelled exactly on rationals. -/
def round2 (q : Rat) : Rat := (roundHalfEven (q * 100) : Rat) / 100

/-- A finished Player Statistics entry: the counters plus the derived
`points` and `ppg` of the second loop of `compute_leaderboard`. -/
structure Stats where
  games : Nat
  wins : Nat
  draws : Nat
  losses : Nat
  points : Nat
  ppg : Rat
  deriving DecidableEq

/-- The second loop of `compute_leaderboard` (source lines 101-103):
`points = wins * WIN_POINTS + draws * DRAW_POINTS` and
`ppg = round(points / games, 2)` when `games` is non-zero, else `0.0`. -/
def finalizeStats (s : PreStats) : Stats :=
  let points := s.wins * WIN_POINTS + s.draws * DRAW_POINTS
  { games := s.games, wins := s.wins, draws := s.draws, losses := s.losses
    points := points
    ppg := if s.games ≠ 0 then round2 ((points : Rat) / (s.games : Rat)) else 0 }

/-- `compute_leaderboard` (source lines 88-105): the per-player
mapping, as an insertion-ordered association list. -/
def compute_leaderboard (game_list : List GameTuple) : List (String × Stats) :=
  (accumStats game_list).map (fun ps => (ps.1, finalizeStats ps.2))

/-- Stable ascending insertion by `end_time`, inserting after equal
keys, mirroring Python's stable `sorted(key = end_time)`. -/
def insertByEnd (g : GameTuple) : List GameTuple → List GameTuple
  | [] => [g]
  | h :: t => if g.end_time < h.end_time then g :: h :: t else h :: insertByEnd g t

/-- `sorted(game_list, key=lambda x: x["end_time"])`. -/
def sortByEnd (l : List GameTuple) : List GameTuple :=
  l.foldr insertByEnd []

/-- Python's negative slice `l[-n:]`: the last `n` elements (all of
them when the list is shorter than `n`). -/
def lastN (n : Nat) (l : List GameTuple) : List GameTuple :=
  l.drop (l.length - n)

/-- The statistics of the "total" section of `save_leaderboard_csv`
(source lines 132, 135). -/
def totalStats (full_game_list : List GameTuple) : List (String × Stats) :=
  compute_leaderboard (sortByEnd full_game_list)

/-- The statistics of the "rolling" section of `save_leaderboard_csv`
(source lines 132-133, 136): aggregate the last `ROLLING_GAME_COUNT`
tuples of the chronologically sorted list. -/
def rollingStats (full_game_list : List GameTuple) : List (String × Stats) :=
  compute_leaderboard (lastN ROLLING_GAME_COUNT (sortByEnd full_game_list))

/-- An HTTP response as far as `fetch_archives` inspects it: the
status code and the `archives` field of the JSON body (defaulting to
`[]`, as `.get('archives', [])` does). -/
structure ArchivesResponse where
  status_code : Nat
  archives : List String
  deriving DecidableEq

/-- `requests.Response.raise_for_status`: raises an `HTTPError`
carrying the status code for any 4xx or 5xx status. -/
def raise_for_status (status_code : Nat) : Except Nat Unit :=
  if 400 ≤ status_code ∧ status_code < 600 then .error status_code else .ok ()

/-- `fetch_archives` (source lines 21-29), with the HTTP transport
modelled by the response it receives: on a 403 return `[]`, otherwise
`raise_for_status` then return the body's archive list. -/
def fetch_archives (response : ArchivesResponse) : Except Nat (List String) :=
  if response.status_code = 403 then .ok []
  else
    match raise_for_status response.status_code with
    | .error e => .error e
    | .ok _ => .ok response.archives

/-! ## Concrete test inputs -/

/-- The raw record of Scenarios A/B: time-control "daily",
white = alice/win, black = bob/checkmated; no end time or URL given. -/
def recA : RawGame :=
  { time_class := some "daily", white_username := some "alice",
    white_result := some "win", black_username := some "bob",
    black_result := some "checkmated", end_time := none, url := none }

/-- Scenario C's record: the same game but with result code "agreed"
(draw by agreement) on both sides. -/
def recAgreed : RawGame :=
  { time_class := some "daily", white_username := some "alice",
    white_result := some "agreed", black_username := some "bob",
    black_result := some "agreed", end_time := none, url := none }

/-- A record whose white side has no username field. -/
def recNoWhite : RawGame :=
  { time_class := some "daily", white_username := none,
    white_result := some "win", black_username := some "bob",
    black_result := some "checkmated", end_time := some 5, url := some "u" }

/-- A roster game: jcorr92 (white) beats teamoth (black). -/
def recW : RawGame :=
  { time_class := some "daily", white_username := some "jcorr92",
    white_result := some "win", black_username := some "teamoth",
    black_result := some "checkmated", end_time := some 10, url := some "g1" }

/-- Scenario E's outcome list: alice with 2 wins, 1 draw, 1 loss. -/
def aliceGames : List GameTuple :=
  [⟨"alice", "bob", "win", 1, ""⟩, ⟨"alice", "bob", "win", 2, ""⟩,
   ⟨"alice", "bob", "draw", 3, ""⟩, ⟨"alice", "bob", "loss", 4, ""⟩]

/-- A one-archive archive fetcher for witnesses. -/
def wFA : String → List String := fun _ => ["arch1"]

/-- A games fetcher returning one roster game for witnesses. -/
def wFG : String → Except String (List RawGame) := fun _ => .ok [recW]

/-- A games fetcher that fails on the URL "bad". -/
def wFGbad : String → Except String (List RawGame) :=
  fun u => if u = "bad" then .error "boom" else .ok [recW]

/-- The per-archive contribution of `parse_daily_games`: nothing when
the games fetch fails, otherwise the classified games. -/
def archiveGames (player : String) (opponents : List String)
    (fetchGames : String → Except String (List RawGame)) (url : String) :
    List GameTuple :=
  match fetchGames url with
  | .error _ => []
  | .ok games => games.filterMap (classifyGame player opponents)

/-! ## Helper lemmas -/

/-- Any tuple emitted by the classifier carries the subject as its
`player` and an eligible opponent as its `opponent`. -/
theorem classifyGame_mem {player : String} {opponents : List String}
    {g : RawGame} {t : GameTuple}
    (h : classifyGame player opponents g = some t) :
    t.player = player ∧ t.opponent ∈ opponents := by
  simp only [classifyGame] at h
  repeat' split at h
  any_goals exact Option.noConfusion h
  all_goals
    rw [Option.some.injEq] at h
    subst h
    refine ⟨rfl, ?_⟩
    simp_all

/-- `parse_daily_games` appends each archive's contribution, in order,
to the accumulator. -/
theorem parse_daily_games_eq (player : String) (opponents : List String)
    (archives : List String) (fetchGames : String → Except String (List RawGame))
    (game_list : List GameTuple) :
    parse_daily_games player opponents archives fetchGames game_list =
      game_list ++ archives.flatMap (archiveGames player opponents fetchGames) := by
  induction archives generalizing game_list with
  | nil => simp [parse_daily_games]
  | cons u us ih =>
      rw [List.flatMap_cons, ← List.append_assoc]
      show List.foldl _ _ (u :: us) = _
      rw [List.foldl_cons]
      rw [show ∀ a, List.foldl _ a us = parse_daily_games player opponents us fetchGames a from fun _ => rfl]
      rw [ih]
      congr 1
      unfold archiveGames
      cases fetchGames u with
      | error e => simp
      | ok games => simp

/-- Any tuple in the result of `parse_daily_games` was in the
accumulator already or was emitted by the classifier for this subject. -/
theorem parse_daily_games_mem {player : String} {opponents : List String}
    {archives : List String} {fetchGames : String → Except String (List RawGame)}
    {acc : List GameTuple} {t : GameTuple}
    (h : t ∈ parse_daily_games player opponents archives fetchGames acc) :
    t ∈ acc ∨ (t.player = player ∧ t.opponent ∈ opponents) := by
  rw [parse_daily_games_eq] at h
  rcases List.mem_append.mp h with h | h
  · exact .inl h
  · right
    rcases List.mem_flatMap.mp h with ⟨u, _, hu⟩
    unfold archiveGames at hu
    split at hu
    · simp at hu
    · rcases List.mem_filterMap.mp hu with ⟨g, _, hg⟩
      exact classifyGame_mem hg

/-- Any tuple accumulated by `main`'s loop over a list of users comes
from the initial accumulator or from one of the users' parses. -/
theorem mainLoop_mem {users : List String} {fA : String → List String}
    {fG : String → Except String (List RawGame)} {acc : List GameTuple}
    {t : GameTuple}
    (h : t ∈ users.foldl (fun acc user =>
      parse_daily_games (strLower user) (eligibleOpponents user)
        (fA (strLower user)) fG acc) acc) :
    t ∈ acc ∨ ∃ u ∈ users, t.player = strLower u ∧ t.opponent ∈ eligibleOpponents u := by
  induction users generalizing acc with
  | nil => exact .inl h
  | cons u us ih =>
      rw [List.foldl_cons] at h
      rcases ih h with h' | ⟨v, hv, hx⟩
      · rcases parse_daily_games_mem h' with h'' | hx
        · exact .inl h''
        · exact .inr ⟨u, by simp, hx⟩
      · exact .inr ⟨v, by simp [hv], hx⟩

/-- The subject's result code determines the classifier's side
selection and opponent. -/
theorem classifyGame_sides {player : String} {opponents : List String}
    {g : RawGame} {t : GameTuple}
    (h : classifyGame player opponents g = some t) :
    (player = strLower (g.white_username.getD "") ∨
      player = strLower (g.black_username.getD "")) ∧
    t.opponent = (if strLower (g.white_username.getD "") = player
      then strLower (g.black_username.getD "")
      else strLower (g.white_username.getD "")) := by
  simp only [classifyGame] at h
  repeat' split at h
  any_goals exact Option.noConfusion h
  all_goals
    rw [Option.some.injEq] at h
    subst h
    refine ⟨?_, ?_⟩ <;> simp_all <;> tauto

/-! ## Claim theorems -/

/-- C1 counterexample: the Scenario C record — time-control "daily",
both checks passing (subject "alice" plays white against eligible
opponent "bob"), result code "agreed" — produces no Outcome Tuple at
all, not a tuple with outcome "draw"; the same record with result
"win" instead shows every check passes. -/
theorem agreed_record_counterexample :
    classifyGame "alice" ["bob"] recAgreed = none ∧
      classifyGame "alice" ["bob"]
        { recAgreed with white_result := some "win" } =
        some ⟨"alice", "bob", "win", 0, ""⟩ := by
  decide

/-- C1 (amended): for any raw game record whose subject-side result
code is "agreed", the Game Classifier emits no Outcome Tuple — the
record is dropped, because "agreed" neither contains the substring
"draw" nor equals "stalemate" (nor is it "win" or a terminal-loss
code). -/
theorem agreed_record_dropped (player : String) (opponents : List String)
    (g : RawGame)
    (hres : (if player = strLower (g.white_username.getD "")
        then g.white_result.getD "" else g.black_result.getD "") = "agreed") :
    classifyGame player opponents g = none := by
  have hnone : outcomeOf "agreed" = none := by decide
  simp only [classifyGame, hres]
  repeat' split
  any_goals rfl
  all_goals
    rename_i heq
    rw [hnone] at heq
    exact Option.noConfusion heq

/-- C1 witness: the amended claim applied to the concrete Scenario C
record. -/
theorem agreed_record_dropped_witness :
    classifyGame "alice" ["bob"] recAgreed = none :=
  agreed_record_dropped "alice" ["bob"] recAgreed (by decide)

/-- C2: every Outcome Tuple appended during `main`'s run has a roster
member as `player` and a roster member different from `player` as
`opponent`, for arbitrary archive lists and raw game records. -/
theorem main_tuples_roster_invariant (fA : String → List String)
    (fG : String → Except String (List RawGame)) (t : GameTuple)
    (h : t ∈ mainGameList fA fG) :
    t.player ∈ ALL_PLAYERS ∧ t.opponent ∈ ALL_PLAYERS ∧ t.opponent ≠ t.player := by
  have e1 : eligibleOpponents "jcorr92" = ["xensprinkles", "euratoole", "teamoth"] := by
    decide
  have e2 : eligibleOpponents "xensprinkles" = ["jcorr92", "euratoole", "teamoth"] := by
    decide
  have e3 : eligibleOpponents "euratoole" = ["jcorr92", "xensprinkles", "teamoth"] := by
    decide
  have e4 : eligibleOpponents "teamoth" = ["jcorr92", "xensprinkles", "euratoole"] := by
    decide
  have s1 : strLower "jcorr92" = "jcorr92" := by decide
  have s2 : strLower "xensprinkles" = "xensprinkles" := by decide
  have s3 : strLower "euratoole" = "euratoole" := by decide
  have s4 : strLower "teamoth" = "teamoth" := by decide
  rcases mainLoop_mem h with h | ⟨u, hu, hp, hop⟩
  · simp at h
  · have hu4 : u = "jcorr92" ∨ u = "xensprinkles" ∨ u = "euratoole" ∨ u = "teamoth" := by
      simpa [ALL_PLAYERS] using hu
    rcases hu4 with rfl | rfl | rfl | rfl <;>
      simp only [e1, e2, e3, e4, s1, s2, s3, s4, List.mem_cons,
        List.not_mem_nil, or_false] at hp hop <;>
      rcases hop with h | h | h <;> rw [hp, h] <;> decide

/-- C2 witness: the invariant applied to a concrete run in which every
archive fetch returns one jcorr92-vs-teamoth game. -/
theorem main_tuples_roster_invariant_witness :
    (⟨"jcorr92", "teamoth", "win", 10, "g1"⟩ : GameTuple).player ∈ ALL_PLAYERS ∧
    (⟨"jcorr92", "teamoth", "win", 10, "g1"⟩ : GameTuple).opponent ∈ ALL_PLAYERS ∧
    (⟨"jcorr92", "teamoth", "win", 10, "g1"⟩ : GameTuple).opponent ≠
      (⟨"jcorr92", "teamoth", "win", 10, "g1"⟩ : GameTuple).player :=
  main_tuples_roster_invariant wFA wFG _ (by decide)

/-- C4: Scenario A — the daily record white=alice/win, black=bob/checkmated
classifies for subject "alice" (eligible {"bob"}) as a win tuple, and
Scenario B — same record for subject "bob" (eligible {"alice"}) as a
loss tuple. -/
theorem scenario_A_B :
    classifyGame "alice" ["bob"] recA = some ⟨"alice", "bob", "win", 0, ""⟩ ∧
      classifyGame "bob" ["alice"] recA = some ⟨"bob", "alice", "loss", 0, ""⟩ := by
  decide

/-- C7: a failing games fetch for one archive leaves the run intact:
the archive contributes nothing (the result is the same as if it were
absent) and the already accumulated tuples remain an unchanged prefix. -/
theorem failed_archive_skipped (player : String) (opponents : List String)
    (pre post : List String) (u : String)
    (fG : String → Except String (List RawGame)) (acc : List GameTuple)
    (e : String) (hu : fG u = .error e) :
    parse_daily_games player opponents (pre ++ u :: post) fG acc =
      parse_daily_games player opponents (pre ++ post) fG acc ∧
    acc <+: parse_daily_games player opponents (pre ++ u :: post) fG acc := by
  constructor
  · rw [parse_daily_games_eq, parse_daily_games_eq]
    have hnil : archiveGames player opponents fG u = [] := by
      unfold archiveGames
      rw [hu]
    simp [hnil]
  · rw [parse_daily_games_eq]
    exact List.prefix_append acc _

/-- C7 witness: skipping the failing archive "bad" between two good
archives. -/
theorem failed_archive_skipped_witness :
    (parse_daily_games "jcorr92" ["teamoth"] (["good"] ++ "bad" :: ["good2"]) wFGbad [] =
      parse_daily_games "jcorr92" ["teamoth"] (["good"] ++ ["good2"]) wFGbad []) ∧
    ([] : List GameTuple) <+:
      parse_daily_games "jcorr92" ["teamoth"] (["good"] ++ "bad" :: ["good2"]) wFGbad [] :=
  failed_archive_skipped "jcorr92" ["teamoth"] ["good"] ["good2"] "bad" wFGbad []
    "boom" rfl

/-- C8: a record in which a side's username is missing (defaulted to
the empty string) is rejected by the side-membership or
opponent-eligibility check whenever the subject and all eligible
opponents are non-empty: no Outcome Tuple is emitted. -/
theorem missing_username_rejected (player : String) (opponents : List String)
    (g : RawGame)
    (hmiss : g.white_username = none ∨ g.black_username = none)
    (hp : player ≠ "") (hopp : ∀ o ∈ opponents, o ≠ "") :
    classifyGame player opponents g = none := by
  cases hc : classifyGame player opponents g with
  | none => rfl
  | some t =>
      exfalso
      obtain ⟨hpw, hopEq⟩ := classifyGame_sides hc
      obtain ⟨_, hopmem⟩ := classifyGame_mem hc
      rcases hmiss with hw | hb
      · have hwhite : strLower (g.white_username.getD "") = "" := by
          rw [hw]
          rfl
        rcases hpw with hA | hB
        · exact hp (hA.trans hwhite)
        · have hne : strLower (g.white_username.getD "") ≠ player := by
            rw [hwhite]
            exact fun hcontra => hp hcontra.symm
          have hop0 : t.opponent = "" := by
            rw [hopEq, if_neg hne, hwhite]
          exact hopp t.opponent hopmem hop0
      · have hblack : strLower (g.black_username.getD "") = "" := by
          rw [hb]
          rfl
        rcases hpw with hA | hB
        · have hop0 : t.opponent = "" := by
            rw [hopEq, if_pos hA.symm, hblack]
          exact hopp t.opponent hopmem hop0
        · exact hp (hB.trans hblack)

/-- C8 witness: a record with no white username, subject "bob",
eligible opponent "alice". -/
theorem missing_username_rejected_witness :
    classifyGame "bob" ["alice"] recNoWhite = none :=
  missing_username_rejected "bob" ["alice"] recNoWhite (Or.inl rfl)
    (by decide) (by decide)

/-- Every entry of `updateStats l p o` is either the bump of an
existing entry of `l` for `p` (or of the defaultdict default), or an
untouched entry of `l`. -/
theorem updateStats_mem {l : List (String × PreStats)} {p o : String}
    {e : String × PreStats} (he : e ∈ updateStats l p o) :
    (∃ s, (s = PreStats.init ∨ (p, s) ∈ l) ∧ e = (p, bumpStats s o)) ∨ e ∈ l := by
  induction l with
  | nil =>
      simp only [updateStats, List.mem_singleton] at he
      exact .inl ⟨PreStats.init, .inl rfl, he⟩
  | cons hd tl ih =>
      obtain ⟨q, s⟩ := hd
      rw [updateStats] at he
      split at he
      · rename_i hq
        subst hq
        rcases List.mem_cons.mp he with rfl | h
        · exact .inl ⟨s, .inr (List.mem_cons_self _ _), rfl⟩
        · exact .inr (List.mem_cons_of_mem _ h)
      · rcases List.mem_cons.mp he with rfl | h
        · exact .inr (List.mem_cons_self _ _)
        · rcases ih h with ⟨s', hs', he'⟩ | h'
          · refine .inl ⟨s', ?_, he'⟩
            rcases hs' with rfl | hmem
            · exact .inl rfl
            · exact .inr (List.mem_cons_of_mem _ hmem)
          · exact .inr (List.mem_cons_of_mem _ h')

/-- A property of per-player counters that holds on the accumulator
and is preserved by bumping (from an old value or from the default) is
an invariant of the counting loop of `compute_leaderboard`. -/
theorem foldl_updateStats_inv (P : PreStats → Prop) (gl : List GameTuple)
    (acc : List (String × PreStats))
    (hacc : ∀ e ∈ acc, P e.2)
    (hbump : ∀ s (g : GameTuple), g ∈ gl → (P s ∨ s = PreStats.init) →
      P (bumpStats s g.outcome)) :
    ∀ e ∈ gl.foldl (fun acc g => updateStats acc g.player g.outcome) acc, P e.2 := by
  induction gl generalizing acc with
  | nil => exact hacc
  | cons g tl ih =>
      rw [List.foldl_cons]
      apply ih
      · intro e he
        rcases updateStats_mem he with ⟨s, hs, rfl⟩ | h
        · refine hbump s g (List.mem_cons_self _ _) ?_
          rcases hs with rfl | hmem
          · exact .inr rfl
          · exact .inl (hacc _ hmem)
        · exact hacc _ h
      · intro s g' hg' hPs
        exact hbump s g' (List.mem_cons_of_mem _ hg') hPs

/-- Banker's rounding is the identity on the integer 175. -/
theorem roundHalfEven_175 : roundHalfEven (175 : Rat) = 175 := by
  simp only [roundHalfEven]
  have hf : Rat.floor (175 : Rat) = 175 := rfl
  rw [hf]
  norm_num

/-- `round(1.75, 2) = 1.75`. -/
theorem round2_seven_quarters : round2 ((7 : Rat) / 4) = 7 / 4 := by
  have h : (7 : Rat) / 4 * 100 = 175 := by norm_num
  rw [round2, h, roundHalfEven_175]
  norm_num

/-- The aggregator's output on Scenario E's outcome list. -/
theorem compute_leaderboard_alice :
    compute_leaderboard aliceGames = [("alice", ⟨4, 2, 1, 1, 7, 7 / 4⟩)] := by
  have hacc : accumStats aliceGames = [("alice", ⟨4, 2, 1, 1⟩)] := by decide
  rw [compute_leaderboard, hacc]
  have hfin : finalizeStats ⟨4, 2, 1, 1⟩ = ⟨4, 2, 1, 1, 7, 7 / 4⟩ := by
    simp only [finalizeStats, WIN_POINTS, DRAW_POINTS]
    norm_num
    exact round2_seven_quarters
  rw [List.map_cons, List.map_nil, hfin]

/-- C3: for any sequence of Outcome Tuples (outcomes ranging over
win/draw/loss), every entry of the mapping returned by
`compute_leaderboard` satisfies `games = wins + draws + losses` and
`points = 3·wins + 1·draws`. -/
theorem leaderboard_counts_consistent (gl : List GameTuple)
    (hout : ∀ g ∈ gl, g.outcome = "win" ∨ g.outcome = "draw" ∨ g.outcome = "loss")
    (p : String) (s : Stats) (hm : (p, s) ∈ compute_leaderboard gl) :
    s.games = s.wins + s.draws + s.losses ∧ s.points = 3 * s.wins + 1 * s.draws := by
  rcases List.mem_map.mp hm with ⟨⟨q, ps⟩, hmem, heq⟩
  cases heq
  have hinv : ps.games = ps.wins + ps.draws + ps.losses := by
    refine foldl_updateStats_inv
      (fun s => s.games = s.wins + s.draws + s.losses) gl [] (by simp)
      ?_ (q, ps) hmem
    intro s g hg hs
    have hP : s.games = s.wins + s.draws + s.losses := by
      rcases hs with h | rfl
      · exact h
      · rfl
    rcases hout g hg with h1 | h1 | h1 <;> simp [bumpStats, h1] <;> omega
  refine ⟨?_, ?_⟩ <;> (simp [finalizeStats, WIN_POINTS, DRAW_POINTS, hinv]; try omega)

/-- C3 witness: the counting identities on Scenario E's outcome list. -/
theorem leaderboard_counts_consistent_witness :
    (Stats.mk 4 2 1 1 7 (7 / 4)).games =
        (Stats.mk 4 2 1 1 7 (7 / 4)).wins + (Stats.mk 4 2 1 1 7 (7 / 4)).draws +
          (Stats.mk 4 2 1 1 7 (7 / 4)).losses ∧
      (Stats.mk 4 2 1 1 7 (7 / 4)).points =
        3 * (Stats.mk 4 2 1 1 7 (7 / 4)).wins + 1 * (Stats.mk 4 2 1 1 7 (7 / 4)).draws :=
  leaderboard_counts_consistent aliceGames (by decide) "alice" _
    (by simp [compute_leaderboard_alice])

/-- C9: every entry of the Aggregator's mapping has
`ppg = round(points / games, 2)` when `games ≠ 0` and `0` otherwise,
and Scenario E (2 wins, 1 draw, 1 loss for alice) yields games = 4,
points = 7, points-per-game = 1.75. -/
theorem ppg_correct :
    (∀ (gl : List GameTuple) (p : String) (s : Stats),
        (p, s) ∈ compute_leaderboard gl →
          s.ppg = if s.games = 0 then 0
            else round2 ((s.points : Rat) / (s.games : Rat))) ∧
      compute_leaderboard aliceGames = [("alice", ⟨4, 2, 1, 1, 7, 7 / 4⟩)] := by
  constructor
  · intro gl p s hm
    rcases List.mem_map.mp hm with ⟨⟨q, ps⟩, _, heq⟩
    cases heq
    by_cases h0 : ps.games = 0 <;> simp [finalizeStats, h0]
  · exact compute_leaderboard_alice

/-- C9 witness: the general points-per-game rule applied to Scenario
E's entry. -/
theorem ppg_correct_witness :
    (Stats.mk 4 2 1 1 7 (7 / 4)).ppg =
      if (Stats.mk 4 2 1 1 7 (7 / 4)).games = 0 then 0
      else round2 (((Stats.mk 4 2 1 1 7 (7 / 4)).points : Rat) /
        ((Stats.mk 4 2 1 1 7 (7 / 4)).games : Rat)) :=
  ppg_correct.1 aliceGames "alice" _ (by simp [compute_leaderboard_alice])

/-- C10: every player key present in the Aggregator's output has at
least one game, so its `ppg` always takes the division branch — the
`games = 0` fallback is unreachable on `compute_leaderboard`'s own
output. -/
theorem leaderboard_games_pos (gl : List GameTuple) (p : String) (s : Stats)
    (hm : (p, s) ∈ compute_leaderboard gl) :
    1 ≤ s.games ∧ s.ppg = round2 ((s.points : Rat) / (s.games : Rat)) := by
  rcases List.mem_map.mp hm with ⟨⟨q, ps⟩, hmem, heq⟩
  cases heq
  have h1 : 1 ≤ ps.games := by
    refine foldl_updateStats_inv (fun s => 1 ≤ s.games) gl [] (by simp)
      ?_ (q, ps) hmem
    intro s g _ _
    simp [bumpStats]
  have h0 : ps.games ≠ 0 := by omega
  refine ⟨by simpa [finalizeStats] using h1, ?_⟩
  simp [finalizeStats, h0]

/-- C10 witness: the positivity and division-branch facts on Scenario
E's entry. -/
theorem leaderboard_games_pos_witness :
    1 ≤ (Stats.mk 4 2 1 1 7 (7 / 4)).games ∧
      (Stats.mk 4 2 1 1 7 (7 / 4)).ppg =
        round2 (((Stats.mk 4 2 1 1 7 (7 / 4)).points : Rat) /
          ((Stats.mk 4 2 1 1 7 (7 / 4)).games : Rat)) :=
  leaderboard_games_pos aliceGames "alice" _ (by simp [compute_leaderboard_alice])

/-- Inserting one element grows the sorted list by one. -/
theorem insertByEnd_length (g : GameTuple) (l : List GameTuple) :
    (insertByEnd g l).length = l.length + 1 := by
  induction l with
  | nil => rfl
  | cons h t ih =>
      rw [insertByEnd]
      split
      · simp
      · simp [ih]

/-- Sorting by end time preserves length. -/
theorem sortByEnd_length (l : List GameTuple) :
    (sortByEnd l).length = l.length := by
  induction l with
  | nil => rfl
  | cons h t ih =>
      show (insertByEnd h (sortByEnd t)).length = t.length + 1
      rw [insertByEnd_length, ih]

/-- C5: when the full outcome list holds fewer than
`ROLLING_GAME_COUNT` tuples, the rolling leaderboard section equals
the total leaderboard section. -/
theorem rolling_eq_total_of_short (gl : List GameTuple)
    (h : gl.length < ROLLING_GAME_COUNT) :
    rollingStats gl = totalStats gl := by
  unfold rollingStats totalStats lastN
  rw [sortByEnd_length, Nat.sub_eq_zero_of_le (le_of_lt h), List.drop_zero]

/-- C5 witness: the rolling and total sections agree on Scenario E's
four-game list. -/
theorem rolling_eq_total_of_short_witness :
    rollingStats aliceGames = totalStats aliceGames :=
  rolling_eq_total_of_short aliceGames (by decide)

/-- C6: `fetch_archives` turns a 403 response into the empty archive
list, and propagates an error for every other non-success (4xx/5xx)
response instead of returning a value. -/
theorem fetch_archives_error_policy :
    (∀ r : ArchivesResponse, r.status_code = 403 → fetch_archives r = .ok []) ∧
      (∀ r : ArchivesResponse, r.status_code ≠ 403 → 400 ≤ r.status_code →
        r.status_code < 600 → fetch_archives r = .error r.status_code) := by
  constructor
  · intro r h
    simp [fetch_archives, h]
  · intro r h h4 h6
    simp [fetch_archives, h, raise_for_status, h4, h6]

/-- C6 witness: a denied (403) response yields `[]`; a 500 response
yields the propagated error. -/
theorem fetch_archives_error_policy_witness :
    fetch_archives ⟨403, ["a"]⟩ = .ok [] ∧
      fetch_archives ⟨500, []⟩ = .error 500 :=
  ⟨fetch_archives_error_policy.1 ⟨403, ["a"]⟩ rfl,
    fetch_archives_error_policy.2 ⟨500, []⟩ (by decide) (by decide) (by decide)⟩

end ChessLeaderboard
